import Mathlib

/-!
Verification development for the Eyevinn open-builder permission broker,
session workspace manager, message-normalization adapter and MCP permission
proxy. JavaScript sources are shallowly embedded: JS values become the
inductive `JSVal`, JS `Map`s become association lists with first-key lookup,
asynchronous races become explicit schedules of respond calls delivered
before or after the fixed 60-second deadline, and the Node `path` module is
modelled by an executable posix-style normalizer. Environment variables are
`Option String` (`none` = unset); assigning `undefined` to `process.env`
coerces to the string literal `undefined`, as Node does.
-/

/-- JavaScript runtime values, restricted to the shapes the embedded code
inspects: primitives, arrays and plain objects (field order preserved). -/
inductive JSVal where
  | vUndefined
  | vNull
  | vBool (b : Bool)
  | vNum (n : Int)
  | vStr (s : String)
  | vArr (elems : List JSVal)
  | vObj (fields : List (String × JSVal))

/-- JavaScript truthiness. `NaN` is not representable in the `Int` model;
no embedded code path produces it. -/
def truthy : JSVal → Bool
  | .vUndefined => false
  | .vNull => false
  | .vBool b => b
  | .vNum n => n != 0
  | .vStr s => s != ""
  | .vArr _ => true
  | .vObj _ => true

/-- JavaScript `typeof`. `typeof null` is `object`. -/
def jsTypeOf : JSVal → String
  | .vUndefined => "undefined"
  | .vNull => "object"
  | .vBool _ => "boolean"
  | .vNum _ => "number"
  | .vStr _ => "string"
  | .vArr _ => "object"
  | .vObj _ => "object"

/-- First-match lookup in an association list, the JS `Map.get` /
property-access discipline. -/
def mapLookup {α : Type} (k : String) : List (String × α) → Option α
  | [] => none
  | (k2, v) :: rest => if k2 = k then some v else mapLookup k rest

/-- JS `Map.set`: overwrite in place when the key exists, append otherwise
(insertion order of other keys is preserved). -/
def mapSet {α : Type} (k : String) (v : α) : List (String × α) → List (String × α)
  | [] => [(k, v)]
  | (k2, v2) :: rest => if k2 = k then (k2, v) :: rest else (k2, v2) :: mapSet k v rest

/-- JS `Map.delete`: remove every entry with the key (assoc lists built via
`mapSet` hold it at most once). -/
def mapDelete {α : Type} (k : String) : List (String × α) → List (String × α)
  | [] => []
  | (k2, v) :: rest => if k2 = k then mapDelete k rest else (k2, v) :: mapDelete k rest

/-- Property access `obj[k]`: `undefined` on missing fields and on
non-object receivers the embedded code dereferences only behind truthiness
guards. -/
def getField (v : JSVal) (k : String) : JSVal :=
  match v with
  | .vObj fs =>
    match mapLookup k fs with
    | some x => x
    | none => .vUndefined
  | _ => .vUndefined

/-- Object spread followed by a field override, `\x7b...obj, k: x\x7d`. -/
def setField (v : JSVal) (k : String) (x : JSVal) : JSVal :=
  match v with
  | .vObj fs => .vObj (mapSet k x fs)
  | _ => v

/-- Strict equality of a `type` field against a string literal,
`obj.type === t`. -/
def typeIs (v : JSVal) (t : String) : Bool :=
  match getField v "type" with
  | .vStr s => s == t
  | _ => false

mutual

/-- JavaScript `String(x)` coercion as used by template literals. -/
def jsStr : JSVal → String
  | .vUndefined => "undefined"
  | .vNull => "null"
  | .vBool true => "true"
  | .vBool false => "false"
  | .vNum n => toString n
  | .vStr s => s
  | .vArr xs => jsStrArr xs
  | .vObj _ => "[object Object]"

/-- Element coercion inside `Array.prototype.join`: `undefined` and `null`
become the empty string, everything else `String(x)`. -/
def jsElemStr : JSVal → String
  | .vUndefined => ""
  | .vNull => ""
  | .vBool true => "true"
  | .vBool false => "false"
  | .vNum n => toString n
  | .vStr s => s
  | .vArr xs => jsStrArr xs
  | .vObj _ => "[object Object]"

/-- `Array.prototype.toString`, i.e. `join(",")` with element coercion. -/
def jsStrArr : List JSVal → String
  | [] => ""
  | [x] => jsElemStr x
  | x :: y :: rest => jsElemStr x ++ "," ++ jsStrArr (y :: rest)

end

/-- Characters removed by JavaScript `String.prototype.trim` (the ASCII
whitespace subset exercised by the embedded code). -/
def isJsSpace (c : Char) : Bool :=
  c = ' ' || c = '\t' || c = '\n' || c = '\r' || c.val = 11 || c.val = 12

/-- JavaScript `String.prototype.trim`. -/
def jsTrim (s : String) : String :=
  String.mk (((s.data.dropWhile isJsSpace).reverse.dropWhile isJsSpace).reverse)

/-- Character-list test that `p` leads `s`. -/
def charsLead : List Char → List Char → Bool
  | [], _ => true
  | _ :: _, [] => false
  | p :: ps, c :: cs => p == c && charsLead ps cs

/-- JavaScript `s.startsWith(p)`. -/
def strHasLead (p s : String) : Bool :=
  charsLead p.data s.data

/-- Join a list of strings with `\n` (`Array.prototype.join("\n")` after
string coercion has already been applied). -/
def joinNewline : List String → String
  | [] => ""
  | [s] => s
  | s :: t :: rest => s ++ "\n" ++ joinNewline (t :: rest)

/-- Split a character list at `/`, keeping empty tokens. -/
def splitSlashAux : List Char → List Char → List String
  | cur, [] => [String.mk cur.reverse]
  | cur, c :: rest =>
    if c = '/' then String.mk cur.reverse :: splitSlashAux [] rest
    else splitSlashAux (c :: cur) rest

/-- Split a string at `/`, keeping empty tokens (posix segment view). -/
def splitSlash (s : String) : List String :=
  splitSlashAux [] s.data

/-- Resolve `.`, `..` and empty segments the way posix `path.normalize`
does; `isAbs` marks a path rooted at `/`, where `..` above the root is
dropped. -/
def collapseSegs (isAbs : Bool) : List String → List String → List String
  | acc, [] => acc.reverse
  | acc, seg :: rest =>
    if seg = "" || seg = "." then collapseSegs isAbs acc rest
    else if seg = ".." then
      match acc with
      | [] => if isAbs then collapseSegs isAbs [] rest else collapseSegs isAbs [".."] rest
      | top :: tl =>
        if top = ".." then collapseSegs isAbs (".." :: (top :: tl)) rest
        else collapseSegs isAbs tl rest
    else collapseSegs isAbs (seg :: acc) rest

/-- Join path segments with `/`. -/
def joinSlash : List String → String
  | [] => ""
  | [s] => s
  | s :: t :: rest => s ++ "/" ++ joinSlash (t :: rest)

/-- Model of posix `path.normalize` (trailing-slash preservation, which the
embedded code never relies on, is not modelled). -/
def normalizePath (s : String) : String :=
  let isAbs := strHasLead "/" s
  let segs := collapseSegs isAbs [] (splitSlash s)
  let body := joinSlash segs
  if isAbs then "/" ++ body else if body = "" then "." else body

/-- Model of posix `path.join` on two arguments, as used by the sources. -/
def jsPathJoin (a b : String) : String :=
  if a = "" && b = "" then "."
  else if a = "" then normalizePath b
  else if b = "" then normalizePath a
  else normalizePath (a ++ "/" ++ b)

/-- Pending permission request as stored by `PermissionManager`
(`src/permissions.js`) and by `server.js`; `timestamp` is abstracted away
since no embedded control flow reads it. -/
structure PermReq where
  id : String
  action : String
  description : String
  resource : Option String
  details : Option String
  status : String
deriving DecidableEq, Repr

/-- Payload of a `permission-response` emitter event. -/
structure PermRespObj where
  id : String
  approved : Bool
  reason : String
deriving DecidableEq, Repr

/-- Events published on the `EventEmitter` bus. -/
inductive BusEvent where
  | permissionRequest (req : PermReq)
  | permissionResponse (resp : PermRespObj)
deriving DecidableEq, Repr

/-- Resolution delivered to the waiter inside `requestMcpPermission`. -/
structure Outcome where
  approved : Bool
  reason : String
deriving DecidableEq, Repr

/-- One invocation of `respondToPermission(permissionId, approved, reason)`;
`reason` is `none` when the caller omitted it. -/
structure RespondCall where
  id : String
  approved : Bool
  reason : Option String
deriving DecidableEq, Repr

/-- Return shape of `respondToPermission`. -/
structure RespondResult where
  success : Bool
  error : Option String
  message : Option String
  permissionId : Option String
  approved : Option Bool
deriving DecidableEq, Repr

/-- The not-found failure returned for an unknown or already-resolved id. -/
def notFoundResult : RespondResult :=
  { success := false
    error := some "Permission request not found or already processed"
    message := none
    permissionId := none
    approved := none }

/-- State of the permission manager during one in-flight
`requestMcpPermission`: the pending map, the (single-resolution) waiter
promise, and the log of bus events emitted since the request was stored. -/
structure RunState where
  pending : List (String × PermReq)
  waiterOutcome : Option Outcome
  busEvents : List BusEvent
deriving DecidableEq, Repr

/-- `reason || (approved ? "Approved by user" : "Denied by user")`. -/
def effectiveReason (reason : Option String) (approved : Bool) : String :=
  let fallback := if approved then "Approved by user" else "Denied by user"
  match reason with
  | some s => if s = "" then fallback else s
  | none => fallback

/-- One `respondToPermission` call while the waiter for `reqId` is
registered. A hit emits `permission-response`; the waiter handler fires
when the id matches and the promise is still unresolved, deleting the
pending entry and resolving exactly once (`clearTimeout` plus
`removeListener` make later deliveries no-ops, encoded by the
`waiterOutcome = none` guard). -/
def respondStep (reqId : String) (st : RunState) (call : RespondCall) :
    RespondResult × RunState :=
  match mapLookup call.id st.pending with
  | none => (notFoundResult, st)
  | some _ =>
    let resp : PermRespObj :=
      { id := call.id
        approved := call.approved
        reason := effectiveReason call.reason call.approved }
    let stEmit : RunState :=
      { st with busEvents := st.busEvents ++ [BusEvent.permissionResponse resp] }
    let stFinal : RunState :=
      if call.id = reqId ∧ st.waiterOutcome = none then
        { stEmit with
            pending := mapDelete reqId stEmit.pending
            waiterOutcome := some { approved := resp.approved, reason := resp.reason } }
      else stEmit
    ({ success := true
       error := none
       message := some ("Permission " ++ (if call.approved then "approved" else "denied"))
       permissionId := some call.id
       approved := some call.approved }, stFinal)

/-- The 60-second timer callback: if the promise is still unresolved it
deletes the pending entry and resolves with the implicit denial; it emits
no bus event. If the waiter already resolved, `clearTimeout` prevented this
callback entirely. -/
def timeoutStep (reqId : String) (st : RunState) : RunState :=
  if st.waiterOutcome = none then
    { st with
        pending := mapDelete reqId st.pending
        waiterOutcome := some { approved := false, reason := "Request timed out after 60 seconds" } }
  else st

/-- Deliver a schedule of respond calls in order. -/
def runCalls (reqId : String) (st : RunState) : List RespondCall → RunState × List RespondResult
  | [] => (st, [])
  | c :: rest =>
    let step := respondStep reqId st c
    let tail := runCalls reqId step.2 rest
    (tail.1, step.1 :: tail.2)

/-- Full race inside `requestMcpPermission`: the respond calls delivered
before the 60-second deadline, then the timer callback, then the calls
delivered after. -/
def runRequest (reqId : String) (st : RunState) (callsBefore callsAfter : List RespondCall) :
    RunState × List RespondResult :=
  let phase1 := runCalls reqId st callsBefore
  let st2 := timeoutStep reqId phase1.1
  let phase2 := runCalls reqId st2 callsAfter
  (phase2.1, phase1.2 ++ phase2.2)

/-- `requestMcpPermission(action, description, resource, details)`:
validates, stores the pending request under the freshly minted id, emits
`permission-request`, then awaits the race. `otherPending` are entries
already in the map (requests added by other call paths); `callsBefore` and
`callsAfter` are the respond calls arriving before and after the deadline. -/
def requestMcpPermission (action description : String) (resource details : Option String)
    (freshId : String) (otherPending : List (String × PermReq))
    (callsBefore callsAfter : List RespondCall) :
    Except String (RunState × List RespondResult) :=
  if action = "" || description = "" then
    Except.error "Action and description are required"
  else
    let req : PermReq :=
      { id := freshId, action := action, description := description
        resource := resource, details := details, status := "pending" }
    let st0 : RunState :=
      { pending := mapSet freshId req otherPending
        waiterOutcome := none
        busEvents := [BusEvent.permissionRequest req] }
    Except.ok (runRequest freshId st0 callsBefore callsAfter)

/-- Outcome dictated by the first respond call for `reqId` delivered before
the deadline, or the standard timeout denial when none arrives. -/
def firstMatchOutcome (reqId : String) (callsBefore : List RespondCall) : Outcome :=
  match callsBefore.find? (fun c => c.id == reqId) with
  | some c => { approved := c.approved, reason := effectiveReason c.reason c.approved }
  | none => { approved := false, reason := "Request timed out after 60 seconds" }

/-- Frames sent over one permission WebSocket connection. -/
inductive WsFrame where
  | connected (clientId : String)
  | pendingSnapshot (permissions : List PermReq)
  | permissionRequestFrame (req : PermReq)
  | permissionResponseFrame (resp : PermRespObj)
deriving DecidableEq, Repr

/-- Server-side state read by the WebSocket connection handler. -/
structure WsServerState where
  pendingPermissions : List (String × PermReq)
  permissionClients : List (String × Bool)
deriving DecidableEq, Repr

/-- `Array.from(pendingPermissions.values())`. -/
def getPendingPermissions (st : WsServerState) : List PermReq :=
  st.pendingPermissions.map (fun e => e.2)

/-- The `wss.on("connection")` handler: mint a client id, add the client,
send the `connected` frame, then send one `pending-permissions` snapshot
only when at least one request is pending; event listeners are registered
afterwards. -/
def handleConnection (st : WsServerState) (clientId : String) :
    WsServerState × List WsFrame :=
  let st1 : WsServerState :=
    { st with permissionClients := mapSet clientId true st.permissionClients }
  let base := [WsFrame.connected clientId]
  let pending := getPendingPermissions st1
  let frames := if 0 < pending.length then base ++ [WsFrame.pendingSnapshot pending] else base
  (st1, frames)

/-- Frame produced by a live bus event for an open subscriber. -/
def eventFrame : BusEvent → WsFrame
  | .permissionRequest req => .permissionRequestFrame req
  | .permissionResponse resp => .permissionResponseFrame resp

/-- All frames one subscriber receives: the synchronous connection frames,
then the bus events published after its listeners were registered. -/
def clientFramesAfterConnect (st : WsServerState) (clientId : String)
    (laterEvents : List BusEvent) : List WsFrame :=
  (handleConnection st clientId).2 ++ laterEvents.map eventFrame

/-- Return shape of `MessageProcessor.processClaudeMessage`. -/
structure ProcOut where
  content : JSVal
  shouldSend : Bool

/-- `MessageProcessor.processClaudeMessage` (`src/utils.js`, mirrored by the
inline classifier in `server.js`). Returns `none` when the final guard
would call `.trim()` on a truthy non-string `content`, which throws in JS. -/
def processClaudeMessage (message : JSVal) : Option ProcOut :=
  let pre : JSVal × Bool :=
    match message with
    | .vStr s => (.vStr s, true)
    | m =>
      if truthy m && jsTypeOf m == "object" then
        if typeIs m "assistant" && truthy (getField m "message") then
          match getField (getField m "message") "content" with
          | .vArr items =>
            let textItems := items.filter (fun item => typeIs item "text")
            let joined := joinNewline (textItems.map (fun item => jsElemStr (getField item "text")))
            (.vStr joined, 0 < joined.length)
          | _ => (.vStr "", false)
        else if typeIs m "result" && truthy (getField m "result") then
          (.vStr "", false)
        else if truthy (getField m "content") then
          (getField m "content", true)
        else if truthy (getField m "text") then
          (getField m "text", true)
        else (.vStr "", false)
      else (.vStr "", false)
  if pre.2 && truthy pre.1 then
    match pre.1 with
    | .vStr s => some { content := pre.1, shouldSend := 0 < (jsTrim s).length }
    | _ => none
  else some { content := pre.1, shouldSend := false }

/-- Environment visible to the MCP permission proxy process. -/
structure ProxyEnv where
  webAppBaseUrl : Option String
  claudeWorkspaceDir : Option String
  cwd : String
deriving DecidableEq, Repr

/-- Result of the proxy's one outbound `fetch` to the broker submit
endpoint: either the call threw (abort timeout, connection failure, or a
`json()` parse failure) or an HTTP response arrived with its ok flag,
parsed JSON body and raw text. -/
inductive FetchOutcome where
  | netError (message : String)
  | httpResp (ok : Bool) (body : JSVal) (text : String)

/-- Decision shape the proxy returns to the agent runtime. -/
structure McpDecision where
  behavior : String
  message : String
  updatedInput : Option JSVal

/-- Truthiness of an environment variable (`undefined` and `""` are falsy). -/
def envTruthy : Option String → Bool
  | some s => s != ""
  | none => false

/-- Argument translation in `handlePermissionRequest`: the tool-call shape
`\x7btool_name, input\x7d` maps details to `input`, the direct shape to
`details`. -/
def argsDetails (args : JSVal) : JSVal :=
  if truthy (getField args "tool_name") && truthy (getField args "input") then
    getField args "input"
  else getField args "details"

/-- Argument translation for the human-readable description. -/
def argsDescription (args : JSVal) : String :=
  if truthy (getField args "tool_name") && truthy (getField args "input") then
    "Request to use " ++ jsStr (getField args "tool_name") ++ " tool"
  else jsStr (getField args "description")

/-- `process.env.WEB_APP_BASE_URL ? process.env.CLAUDE_WORKSPACE_DIR ||
"./usercontent" : "./usercontent"`. -/
def proxyWorkspaceDir (env : ProxyEnv) : String :=
  if envTruthy env.webAppBaseUrl then
    match env.claudeWorkspaceDir with
    | some s => if s = "" then "./usercontent" else s
    | none => "./usercontent"
  else "./usercontent"

/-- The regex replace `s.replace(/^\/tmp[\/\\]?/, "")`: strip a leading
`/tmp` plus at most one following slash or backslash. -/
def stripTmpLead (s : String) : String :=
  match s.data with
  | '/' :: 't' :: 'm' :: 'p' :: rest =>
    match rest with
    | '/' :: rest2 => String.mk rest2
    | '\\' :: rest2 => String.mk rest2
    | _ => String.mk rest
  | _ => s

/-- The `/tmp` redirect in `handlePermissionRequest`: an approved file path
rooted in `/tmp` is rebased onto the (absolutized) workspace directory;
`path.resolve(cwd, dir)` for a relative dir is approximated by the same
posix join. -/
def rewriteTmpPath (fp workspaceDir cwd : String) : String :=
  if strHasLead "/tmp/" fp || strHasLead "/tmp\\" fp then
    let fileName := stripTmpLead fp
    if fileName != "" then
      let absWorkspaceDir :=
        if strHasLead "/" workspaceDir then workspaceDir else jsPathJoin cwd workspaceDir
      jsPathJoin absWorkspaceDir fileName
    else fp
  else fp

/-- `result.reason || "User denied the request"` rendered in the denial
message template. -/
def reasonText (body : JSVal) : String :=
  let r := getField body "reason"
  if truthy r then jsStr r else "User denied the request"

/-- Decision built in the catch-all error handler of
`handlePermissionRequest`: always deny. -/
def denyDecision (errMsg : String) : McpDecision :=
  { behavior := "deny"
    message := "Permission request failed: " ++ errMsg ++ ". Assuming permission denied for safety."
    updatedInput := none }

/-- `PermissionMCPServer.handlePermissionRequest` decision logic
(`mcp-permission-server.js`): translate the arguments, inspect the fetch
outcome, validate the response, and build the allow/deny decision with the
optional `/tmp` redirect of `updatedInput.file_path`. Every thrown error
lands in the catch handler, which returns `denyDecision`. -/
def handlePermission (args : JSVal) (env : ProxyEnv) (fetch : FetchOutcome) : McpDecision :=
  let details := argsDetails args
  let description := argsDescription args
  match fetch with
  | .netError m => denyDecision m
  | .httpResp ok body text =>
    if !ok then
      denyDecision ("Permission request failed: " ++ text)
    else if !(truthy body) || jsTypeOf body != "object" then
      denyDecision ("Invalid response format: expected object, got " ++ jsTypeOf body)
    else
      match getField body "approved" with
      | .vBool approvedFlag =>
        let base : McpDecision :=
          { behavior := if approvedFlag then "allow" else "deny"
            message :=
              if approvedFlag then
                "Permission approved: " ++ description ++ ". You may proceed with the action."
              else
                "Permission denied: " ++ description ++ ". Reason: " ++ reasonText body
            updatedInput := none }
        if approvedFlag && truthy details && truthy (getField details "file_path") then
          match getField details "file_path" with
          | .vStr fp =>
            let modified := rewriteTmpPath fp (proxyWorkspaceDir env) env.cwd
            { base with updatedInput := some (setField details "file_path" (.vStr modified)) }
          | _ => denyDecision "details.file_path.startsWith is not a function"
        else base
      | other =>
        denyDecision ("Invalid response: approved field must be boolean, got " ++ jsTypeOf other)

/-- Transport failures named by the spec: the fetch threw (timeout or
connection error), the HTTP status was not ok, or the response body carries
no boolean `approved` field (malformed response). -/
def isTransportFailure : FetchOutcome → Bool
  | .netError _ => true
  | .httpResp ok body _ =>
    !ok ||
      (match getField body "approved" with
       | .vBool _ => false
       | _ => true)

/-- Filesystem effects of the workspace manager. -/
inductive FsOp where
  | ensureDir (dir : String)
  | writeFile (path : String) (content : String)
deriving DecidableEq, Repr

/-- README seeded into every fresh session workspace. -/
def sessionReadme (sessionId now dir : String) : String :=
  "# Claude Session Workspace\n\nThis is a session-specific workspace directory for Claude.\n\n## Session Information\n- Session ID: " ++ sessionId ++ "\n- Created: " ++ now ++ "\n- Directory: " ++ dir ++ "\n\n## Usage\n- This workspace is isolated to this session\n- All files created by Claude will be stored here\n- The workspace persists until the session ends\n"

/-- Return shape of `createSessionWorkspace`/`getSessionWorkspace`. -/
structure SessionWorkspaceResult where
  sessionId : String
  workspaceDir : String
deriving DecidableEq, Repr

/-- `createSessionWorkspace(baseWorkspaceDir)`: mint a directory under the
base dir from the freshly generated session id, ensure it exists and seed
its README. The `session_${Date.now()}_${random}` mint is abstracted into
the `freshSessionId` parameter; `now` stands for the timestamp string. -/
def createSessionWorkspace (baseWorkspaceDir freshSessionId now : String) :
    SessionWorkspaceResult × List FsOp :=
  let sessionWorkspaceDir := jsPathJoin baseWorkspaceDir freshSessionId
  ({ sessionId := freshSessionId, workspaceDir := sessionWorkspaceDir },
   [FsOp.ensureDir sessionWorkspaceDir,
    FsOp.writeFile (jsPathJoin sessionWorkspaceDir "README.md")
      (sessionReadme freshSessionId now sessionWorkspaceDir)])

/-- The guard `sessionId && this.sessionWorkspaces.has(sessionId)`. -/
def sessionKnown (sessionId : Option String) (m : List (String × String)) : Bool :=
  match sessionId with
  | some sid => sid != "" && (mapLookup sid m).isSome
  | none => false

/-- The new-session branch shared by all misses: create a workspace and
record the binding under the newly minted id. -/
def createAndBind (m : List (String × String)) (base fresh now : String) :
    SessionWorkspaceResult × List (String × String) × List FsOp :=
  let created := createSessionWorkspace base fresh now
  (created.1, mapSet created.1.sessionId created.1.workspaceDir m, created.2)

/-- `getSessionWorkspace(sessionId, baseWorkspaceDir)` over the session map
`m`: a truthy id present in the map returns its stored directory and leaves
everything unchanged; any other call takes the new-session branch. -/
def getSessionWorkspace (sessionId : Option String) (m : List (String × String))
    (base fresh now : String) :
    SessionWorkspaceResult × List (String × String) × List FsOp :=
  match sessionId with
  | some sid =>
    if sid ≠ "" then
      match mapLookup sid m with
      | some dir => ({ sessionId := sid, workspaceDir := dir }, m, [])
      | none => createAndBind m base fresh now
    else createAndBind m base fresh now
  | none => createAndBind m base fresh now

/-- `EnvironmentManager.originalEnv` (`src/utils.js`): null from the
constructor, or the saved value of `process.env.CLAUDE_WORKSPACE_DIR`
(which is `undefined`, here `none`, when the variable was unset). -/
inductive SavedEnv where
  | nullSaved
  | saved (value : Option String)
deriving DecidableEq, Repr

/-- `EnvironmentManager.backup()`. -/
def envBackup (env : Option String) : SavedEnv :=
  SavedEnv.saved env

/-- `EnvironmentManager.setWorkspace(dir)`: assign the session workspace. -/
def envSetWorkspace (workspaceDir : String) (_env : Option String) : Option String :=
  some workspaceDir

/-- `EnvironmentManager.restore()`: the guard is the strict comparison
`originalEnv !== null`, which an `undefined` saved value also passes; the
assignment `process.env.X = undefined` then stores the string literal
`undefined`, because Node coerces every assigned env value to a string. -/
def envRestore (savedState : SavedEnv) (env : Option String) : Option String :=
  match savedState with
  | SavedEnv.nullSaved => env
  | SavedEnv.saved v => some (v.getD "undefined")

/-- Net effect of `processStreamingChat`/`processRegularChat` on
`process.env.CLAUDE_WORKSPACE_DIR`: backup, set to the session workspace,
run the body (its result is irrelevant to the env var), then restore in the
`finally` block. -/
def chatEnvRun (env0 : Option String) (sessionWorkspaceDir : String) : Option String :=
  let savedState := envBackup env0
  let envDuring := envSetWorkspace sessionWorkspaceDir env0
  envRestore savedState envDuring

lemma mapLookup_mapSet_self {α : Type} (k : String) (v : α) (m : List (String × α)) :
    mapLookup k (mapSet k v m) = some v := by
  induction m with
  | nil => simp [mapSet, mapLookup]
  | cons e rest ih =>
    obtain ⟨k2, v2⟩ := e
    by_cases h : k2 = k
    · simp [mapSet, mapLookup, h]
    · simp [mapSet, mapLookup, h, ih]

lemma mapLookup_mapDelete_self {α : Type} (k : String) (m : List (String × α)) :
    mapLookup k (mapDelete k m) = none := by
  induction m with
  | nil => simp [mapDelete, mapLookup]
  | cons e rest ih =>
    obtain ⟨k2, v2⟩ := e
    by_cases h : k2 = k
    · simp [mapDelete, h, ih]
    · simp [mapDelete, mapLookup, h, ih]

lemma runCalls_resolved (reqId : String) (o : Outcome) :
    ∀ (calls : List RespondCall) (st : RunState),
      st.waiterOutcome = some o → mapLookup reqId st.pending = none →
      (runCalls reqId st calls).1.waiterOutcome = some o ∧
      mapLookup reqId (runCalls reqId st calls).1.pending = none := by
  intro calls
  induction calls with
  | nil => intro st hw hp; simpa [runCalls] using ⟨hw, hp⟩
  | cons c rest ih =>
    intro st hw hp
    by_cases hid : c.id = reqId
    · have hlk : mapLookup c.id st.pending = none := by rw [hid]; exact hp
      simpa [runCalls, respondStep, hlk] using ih st hw hp
    · cases hlk : mapLookup c.id st.pending with
      | none => simpa [runCalls, respondStep, hlk] using ih st hw hp
      | some req2 =>
        have := ih { st with
            busEvents := st.busEvents ++
              [BusEvent.permissionResponse
                { id := c.id, approved := c.approved,
                  reason := effectiveReason c.reason c.approved }] } hw hp
        simpa [runCalls, respondStep, hlk, hid, hw] using this

lemma runCalls_unresolved (reqId : String) (req : PermReq) :
    ∀ (calls : List RespondCall) (st : RunState),
      st.waiterOutcome = none → mapLookup reqId st.pending = some req →
      (∃ c, calls.find? (fun c => c.id == reqId) = some c ∧
         (runCalls reqId st calls).1.waiterOutcome =
           some { approved := c.approved, reason := effectiveReason c.reason c.approved } ∧
         mapLookup reqId (runCalls reqId st calls).1.pending = none) ∨
      (calls.find? (fun c => c.id == reqId) = none ∧
         (runCalls reqId st calls).1.waiterOutcome = none ∧
         mapLookup reqId (runCalls reqId st calls).1.pending = some req) := by
  intro calls
  induction calls with
  | nil => intro st hw hp; right; simpa [runCalls] using ⟨hw, hp⟩
  | cons c rest ih =>
    intro st hw hp
    by_cases hid : c.id = reqId
    · left
      refine ⟨c, by simp [List.find?, hid], ?_⟩
      have hlk : mapLookup c.id st.pending = some req := by rw [hid]; exact hp
      have hres := runCalls_resolved reqId
        { approved := c.approved, reason := effectiveReason c.reason c.approved } rest
        { pending := mapDelete reqId st.pending
          waiterOutcome := some { approved := c.approved, reason := effectiveReason c.reason c.approved }
          busEvents := st.busEvents ++
            [BusEvent.permissionResponse
              { id := c.id, approved := c.approved,
                reason := effectiveReason c.reason c.approved }] }
        rfl (mapLookup_mapDelete_self reqId st.pending)
      simpa [runCalls, respondStep, hlk, hid, hw, hp] using hres
    · have hbeq : (c.id == reqId) = false := by simp [hid]
      have hfind : (c :: rest).find? (fun c => c.id == reqId) = rest.find? (fun c => c.id == reqId) := by
        simp [List.find?, hbeq]
      cases hlk : mapLookup c.id st.pending with
      | none =>
        have := ih st hw hp
        simpa [runCalls, respondStep, hlk, hfind] using this
      | some req2 =>
        have := ih { st with
            busEvents := st.busEvents ++
              [BusEvent.permissionResponse
                { id := c.id, approved := c.approved,
                  reason := effectiveReason c.reason c.approved }] } hw hp
        simpa [runCalls, respondStep, hlk, hid, hfind] using this

lemma runCalls_busMono (reqId : String) :
    ∀ (calls : List RespondCall) (st : RunState),
      ∃ tail, (runCalls reqId st calls).1.busEvents = st.busEvents ++ tail := by
  intro calls
  induction calls with
  | nil => intro st; exact ⟨[], by simp [runCalls]⟩
  | cons c rest ih =>
    intro st
    cases hlk : mapLookup c.id st.pending with
    | none =>
      obtain ⟨tail, htail⟩ := ih st
      exact ⟨tail, by simpa [runCalls, respondStep, hlk] using htail⟩
    | some req2 =>
      by_cases hcond : c.id = reqId ∧ st.waiterOutcome = none
      · obtain ⟨tail, htail⟩ := ih
          { pending := mapDelete reqId st.pending
            waiterOutcome := some { approved := c.approved, reason := effectiveReason c.reason c.approved }
            busEvents := st.busEvents ++
              [BusEvent.permissionResponse
                { id := c.id, approved := c.approved,
                  reason := effectiveReason c.reason c.approved }] }
        refine ⟨BusEvent.permissionResponse
            { id := c.id, approved := c.approved,
              reason := effectiveReason c.reason c.approved } :: tail, ?_⟩
        simp only [runCalls, respondStep, hlk, if_pos hcond]
        simpa using htail
      · obtain ⟨tail, htail⟩ := ih { st with
            busEvents := st.busEvents ++
              [BusEvent.permissionResponse
                { id := c.id, approved := c.approved,
                  reason := effectiveReason c.reason c.approved }] }
        refine ⟨BusEvent.permissionResponse
            { id := c.id, approved := c.approved,
              reason := effectiveReason c.reason c.approved } :: tail, ?_⟩
        simp only [runCalls, respondStep, hlk, if_neg hcond]
        simpa using htail

lemma runCalls_resp_other (reqId : String) :
    ∀ (calls : List RespondCall) (st : RunState),
      (∀ c ∈ calls, c.id ≠ reqId) →
      (runCalls reqId st calls).1.waiterOutcome = st.waiterOutcome ∧
      mapLookup reqId (runCalls reqId st calls).1.pending = mapLookup reqId st.pending ∧
      (∀ r, BusEvent.permissionResponse r ∈ (runCalls reqId st calls).1.busEvents →
        BusEvent.permissionResponse r ∈ st.busEvents ∨ r.id ≠ reqId) := by
  intro calls
  induction calls with
  | nil =>
    intro st _
    refine ⟨by simp [runCalls], by simp [runCalls], ?_⟩
    intro r hr
    exact Or.inl (by simpa [runCalls] using hr)
  | cons c rest ih =>
    intro st hids
    have hid : c.id ≠ reqId := hids c (List.mem_cons_self c rest)
    have hrest : ∀ c2 ∈ rest, c2.id ≠ reqId := fun c2 hc2 => hids c2 (List.mem_cons_of_mem c hc2)
    cases hlk : mapLookup c.id st.pending with
    | none =>
      have := ih st hrest
      simpa [runCalls, respondStep, hlk] using this
    | some req2 =>
      have hstep := ih { st with
          busEvents := st.busEvents ++
            [BusEvent.permissionResponse
              { id := c.id, approved := c.approved,
                reason := effectiveReason c.reason c.approved }] } hrest
      obtain ⟨h1, h2, h3⟩ := hstep
      refine ⟨?_, ?_, ?_⟩
      · simpa [runCalls, respondStep, hlk, hid] using h1
      · simpa [runCalls, respondStep, hlk, hid] using h2
      · intro r hr
        have hr2 : BusEvent.permissionResponse r ∈ st.busEvents ++
            [BusEvent.permissionResponse
              { id := c.id, approved := c.approved,
                reason := effectiveReason c.reason c.approved }] ∨ r.id ≠ reqId := by
          apply h3 r
          simpa [runCalls, respondStep, hlk, hid] using hr
        rcases hr2 with hr2 | hr2
        · rcases List.mem_append.mp hr2 with hl | hl
          · exact Or.inl hl
          · right
            have hreq : r = { id := c.id, approved := c.approved,
                              reason := effectiveReason c.reason c.approved } := by
              simpa using hl
            rw [hreq]
            exact hid
        · exact Or.inr hr2

lemma runCalls_resp_silent (reqId : String) :
    ∀ (calls : List RespondCall) (st : RunState),
      mapLookup reqId st.pending = none →
      (∀ r, BusEvent.permissionResponse r ∈ st.busEvents → r.id ≠ reqId) →
      mapLookup reqId (runCalls reqId st calls).1.pending = none ∧
      (∀ r, BusEvent.permissionResponse r ∈ (runCalls reqId st calls).1.busEvents → r.id ≠ reqId) := by
  intro calls
  induction calls with
  | nil => intro st hp hb; simpa [runCalls] using ⟨hp, hb⟩
  | cons c rest ih =>
    intro st hp hb
    cases hlk : mapLookup c.id st.pending with
    | none =>
      have := ih st hp hb
      simpa [runCalls, respondStep, hlk] using this
    | some req2 =>
      have hidne : c.id ≠ reqId := by
        intro h
        rw [h, hp] at hlk
        exact Option.noConfusion hlk
      have hb2 : ∀ r, BusEvent.permissionResponse r ∈ st.busEvents ++
          [BusEvent.permissionResponse
            { id := c.id, approved := c.approved,
              reason := effectiveReason c.reason c.approved }] → r.id ≠ reqId := by
        intro r hr
        rcases List.mem_append.mp hr with hl | hl
        · exact hb r hl
        · have hreq : r = { id := c.id, approved := c.approved,
                            reason := effectiveReason c.reason c.approved } := by
            simpa using hl
          rw [hreq]
          exact hidne
      have := ih { st with
          busEvents := st.busEvents ++
            [BusEvent.permissionResponse
              { id := c.id, approved := c.approved,
                reason := effectiveReason c.reason c.approved }] } hp hb2
      simpa [runCalls, respondStep, hlk, hidne] using this

lemma runRequest_outcome (reqId : String) (req : PermReq) (st0 : RunState)
    (callsBefore callsAfter : List RespondCall)
    (hw : st0.waiterOutcome = none) (hp : mapLookup reqId st0.pending = some req) :
    (runRequest reqId st0 callsBefore callsAfter).1.waiterOutcome =
      some (firstMatchOutcome reqId callsBefore) ∧
    mapLookup reqId (runRequest reqId st0 callsBefore callsAfter).1.pending = none := by
  rcases runCalls_unresolved reqId req callsBefore st0 hw hp with
    ⟨c, hfind, hwout, hpend⟩ | ⟨hfind, hwout, hpend⟩
  · have htm : timeoutStep reqId (runCalls reqId st0 callsBefore).1 =
        (runCalls reqId st0 callsBefore).1 := by
      simp [timeoutStep, hwout]
    have hafter := runCalls_resolved reqId
      { approved := c.approved, reason := effectiveReason c.reason c.approved }
      callsAfter (runCalls reqId st0 callsBefore).1 hwout hpend
    simp only [runRequest, htm]
    exact ⟨by rw [hafter.1, firstMatchOutcome, hfind], hafter.2⟩
  · have htm : timeoutStep reqId (runCalls reqId st0 callsBefore).1 =
        { (runCalls reqId st0 callsBefore).1 with
            pending := mapDelete reqId (runCalls reqId st0 callsBefore).1.pending
            waiterOutcome := some { approved := false, reason := "Request timed out after 60 seconds" } } := by
      simp [timeoutStep, hwout]
    have hafter := runCalls_resolved reqId
      { approved := false, reason := "Request timed out after 60 seconds" }
      callsAfter
      { (runCalls reqId st0 callsBefore).1 with
          pending := mapDelete reqId (runCalls reqId st0 callsBefore).1.pending
          waiterOutcome := some { approved := false, reason := "Request timed out after 60 seconds" } }
      rfl (mapLookup_mapDelete_self reqId _)
    simp only [runRequest, htm]
    exact ⟨by rw [hafter.1, firstMatchOutcome, hfind], hafter.2⟩

/-- C1: every permission request accepted by `requestMcpPermission` (non-empty
action and description) completes with exactly one outcome: the first matching
respond call delivered before the 60-second deadline wins, and otherwise the
wait resolves with the implicit denial `approved := false`,
`reason := "Request timed out after 60 seconds"`. In both cases the request is
gone from the pending registry afterwards, and the timeout path is an
`Except.ok` result, not an error. -/
theorem claim_C1_submit_single_outcome
    (action description freshId : String) (resource details : Option String)
    (otherPending : List (String × PermReq)) (callsBefore callsAfter : List RespondCall)
    (hact : action ≠ "") (hdesc : description ≠ "") :
    ∃ st results,
      requestMcpPermission action description resource details freshId otherPending
          callsBefore callsAfter = Except.ok (st, results) ∧
      st.waiterOutcome = some (firstMatchOutcome freshId callsBefore) ∧
      mapLookup freshId st.pending = none := by
  have hcond : ((action = "" : Bool) || (description = "" : Bool)) = false := by
    simp [hact, hdesc]
  set req : PermReq :=
    { id := freshId, action := action, description := description
      resource := resource, details := details, status := "pending" } with hreq
  set st0 : RunState :=
    { pending := mapSet freshId req otherPending
      waiterOutcome := none
      busEvents := [BusEvent.permissionRequest req] } with hst0
  have hrun := runRequest_outcome freshId req st0 callsBefore callsAfter rfl
    (mapLookup_mapSet_self _ _ _)
  refine ⟨(runRequest freshId st0 callsBefore callsAfter).1,
          (runRequest freshId st0 callsBefore callsAfter).2, ?_, hrun.1, hrun.2⟩
  simp only [requestMcpPermission, hcond, Bool.false_eq_true, if_false]

lemma runRequest_timeout_silent (reqId : String) (req : PermReq) (st0 : RunState)
    (callsBefore callsAfter : List RespondCall)
    (hw : st0.waiterOutcome = none) (_hp : mapLookup reqId st0.pending = some req)
    (hev0 : st0.busEvents = [BusEvent.permissionRequest req])
    (hbefore : ∀ c ∈ callsBefore, c.id ≠ reqId) :
    (runRequest reqId st0 callsBefore callsAfter).1.waiterOutcome =
      some { approved := false, reason := "Request timed out after 60 seconds" } ∧
    mapLookup reqId (runRequest reqId st0 callsBefore callsAfter).1.pending = none ∧
    (∀ r, BusEvent.permissionResponse r ∈ (runRequest reqId st0 callsBefore callsAfter).1.busEvents →
        r.id ≠ reqId) ∧
    BusEvent.permissionRequest req ∈ (runRequest reqId st0 callsBefore callsAfter).1.busEvents := by
  obtain ⟨hw1, hp1, hev1⟩ := runCalls_resp_other reqId callsBefore st0 hbefore
  have hw1n : (runCalls reqId st0 callsBefore).1.waiterOutcome = none := by rw [hw1, hw]
  have hresp1 : ∀ r, BusEvent.permissionResponse r ∈ (runCalls reqId st0 callsBefore).1.busEvents →
      r.id ≠ reqId := by
    intro r hr
    rcases hev1 r hr with h | h
    · rw [hev0] at h
      simp at h
    · exact h
  have htm : timeoutStep reqId (runCalls reqId st0 callsBefore).1 =
      { (runCalls reqId st0 callsBefore).1 with
          pending := mapDelete reqId (runCalls reqId st0 callsBefore).1.pending
          waiterOutcome := some { approved := false, reason := "Request timed out after 60 seconds" } } := by
    simp [timeoutStep, hw1n]
  obtain ⟨hp3, hev3⟩ := runCalls_resp_silent reqId callsAfter
      { (runCalls reqId st0 callsBefore).1 with
          pending := mapDelete reqId (runCalls reqId st0 callsBefore).1.pending
          waiterOutcome := some { approved := false, reason := "Request timed out after 60 seconds" } }
      (mapLookup_mapDelete_self _ _) hresp1
  have hwfin := (runCalls_resolved reqId
      { approved := false, reason := "Request timed out after 60 seconds" } callsAfter
      { (runCalls reqId st0 callsBefore).1 with
          pending := mapDelete reqId (runCalls reqId st0 callsBefore).1.pending
          waiterOutcome := some { approved := false, reason := "Request timed out after 60 seconds" } }
      rfl (mapLookup_mapDelete_self _ _)).1
  obtain ⟨t1, ht1⟩ := runCalls_busMono reqId callsBefore st0
  obtain ⟨t2, ht2⟩ := runCalls_busMono reqId callsAfter
      { (runCalls reqId st0 callsBefore).1 with
          pending := mapDelete reqId (runCalls reqId st0 callsBefore).1.pending
          waiterOutcome := some { approved := false, reason := "Request timed out after 60 seconds" } }
  have hmem : BusEvent.permissionRequest req ∈
      (runCalls reqId
        { (runCalls reqId st0 callsBefore).1 with
            pending := mapDelete reqId (runCalls reqId st0 callsBefore).1.pending
            waiterOutcome := some { approved := false, reason := "Request timed out after 60 seconds" } }
        callsAfter).1.busEvents := by
    rw [ht2]
    apply List.mem_append_left
    show BusEvent.permissionRequest req ∈ (runCalls reqId st0 callsBefore).1.busEvents
    rw [ht1, hev0]
    exact List.mem_append_left _ (List.mem_singleton_self _)
  refine ⟨?_, ?_, ?_, ?_⟩ <;> simp only [runRequest, htm]
  · exact hwfin
  · exact hp3
  · exact hev3
  · exact hmem

/-- C10: a permission request that terminates by the 60-second timeout never
publishes a `permission-response` event for its id on the bus: the pending
entry is deleted and the waiter is resolved with the implicit denial, yet the
only bus event carrying the request id that observers ever see is the original
`permission-request`. -/
theorem claim_C10_timeout_publishes_no_response
    (action description freshId : String) (resource details : Option String)
    (otherPending : List (String × PermReq)) (callsBefore callsAfter : List RespondCall)
    (hact : action ≠ "") (hdesc : description ≠ "")
    (hbefore : ∀ c ∈ callsBefore, c.id ≠ freshId) :
    ∃ st results,
      requestMcpPermission action description resource details freshId otherPending
          callsBefore callsAfter = Except.ok (st, results) ∧
      st.waiterOutcome = some { approved := false, reason := "Request timed out after 60 seconds" } ∧
      mapLookup freshId st.pending = none ∧
      (∀ r, BusEvent.permissionResponse r ∈ st.busEvents → r.id ≠ freshId) ∧
      BusEvent.permissionRequest
          { id := freshId, action := action, description := description
            resource := resource, details := details, status := "pending" } ∈ st.busEvents := by
  have hcond : ((action = "" : Bool) || (description = "" : Bool)) = false := by
    simp [hact, hdesc]
  set req : PermReq :=
    { id := freshId, action := action, description := description
      resource := resource, details := details, status := "pending" } with hreq
  set st0 : RunState :=
    { pending := mapSet freshId req otherPending
      waiterOutcome := none
      busEvents := [BusEvent.permissionRequest req] } with hst0
  have hrun := runRequest_timeout_silent freshId req st0 callsBefore callsAfter rfl
    (mapLookup_mapSet_self _ _ _) rfl hbefore
  refine ⟨(runRequest freshId st0 callsBefore callsAfter).1,
          (runRequest freshId st0 callsBefore callsAfter).2, ?_,
          hrun.1, hrun.2.1, hrun.2.2.1, hrun.2.2.2⟩
  simp only [requestMcpPermission, hcond, Bool.false_eq_true, if_false]

/-- C2: `respondToPermission` with an unknown or already-resolved id returns
the not-found failure and changes nothing; a first matching resolve succeeds
and fixes the waiter outcome, and a second resolve of the same id returns
not-found and leaves the first outcome and all state unchanged. -/
theorem claim_C2_resolve_unknown_or_resolved :
    (∀ (reqId : String) (st : RunState) (call : RespondCall),
        mapLookup call.id st.pending = none →
        respondStep reqId st call = (notFoundResult, st)) ∧
    (∀ (reqId : String) (st : RunState) (req : PermReq) (ca cb : RespondCall),
        ca.id = reqId → cb.id = reqId →
        mapLookup reqId st.pending = some req → st.waiterOutcome = none →
        (respondStep reqId st ca).1.success = true ∧
        ((respondStep reqId st ca).2).waiterOutcome =
          some { approved := ca.approved, reason := effectiveReason ca.reason ca.approved } ∧
        respondStep reqId ((respondStep reqId st ca).2) cb =
          (notFoundResult, (respondStep reqId st ca).2)) := by
  constructor
  · intro reqId st call h
    simp [respondStep, h]
  · intro reqId st req ca cb hca hcb hp hw
    have hlk : mapLookup ca.id st.pending = some req := by rw [hca]; exact hp
    have hstep : respondStep reqId st ca =
        ({ success := true
           error := none
           message := some ("Permission " ++ (if ca.approved then "approved" else "denied"))
           permissionId := some ca.id
           approved := some ca.approved },
         { pending := mapDelete reqId st.pending
           waiterOutcome := some { approved := ca.approved
                                   reason := effectiveReason ca.reason ca.approved }
           busEvents := st.busEvents ++
             [BusEvent.permissionResponse
               { id := ca.id, approved := ca.approved
                 reason := effectiveReason ca.reason ca.approved }] }) := by
      simp [respondStep, hlk, hca, hw, hp]
    rw [hstep]
    refine ⟨rfl, rfl, ?_⟩
    have hnone : mapLookup cb.id (mapDelete reqId st.pending) = none := by
      rw [hcb]
      exact mapLookup_mapDelete_self reqId st.pending
    simp [respondStep, hnone]

/-- C1 witness: a concrete accepted request whose matching respond call
arrives before the deadline, with every hypothesis discharged. -/
theorem claim_C1_submit_single_outcome_witness :
    ("file_write" : String) ≠ "" ∧ ("Write a file" : String) ≠ "" ∧
    (∃ st results,
      requestMcpPermission "file_write" "Write a file" none none "mcp_perm_1" []
          [{ id := "mcp_perm_1", approved := true, reason := some "go ahead" }] []
        = Except.ok (st, results) ∧
      st.waiterOutcome = some (firstMatchOutcome "mcp_perm_1"
        [{ id := "mcp_perm_1", approved := true, reason := some "go ahead" }]) ∧
      mapLookup "mcp_perm_1" st.pending = none) :=
  ⟨by decide, by decide,
   claim_C1_submit_single_outcome "file_write" "Write a file" "mcp_perm_1" none none []
     [{ id := "mcp_perm_1", approved := true, reason := some "go ahead" }] []
     (by decide) (by decide)⟩

/-- C2 witness: concrete unknown-id call and concrete double resolution of
one pending request. -/
theorem claim_C2_resolve_unknown_or_resolved_witness :
    (respondStep "mcp_perm_1"
        { pending := [("mcp_perm_1",
            { id := "mcp_perm_1", action := "file_write", description := "Write a file"
              resource := none, details := none, status := "pending" })]
          waiterOutcome := none
          busEvents := [] }
        { id := "unknown_id", approved := true, reason := none }
      = (notFoundResult,
        { pending := [("mcp_perm_1",
            { id := "mcp_perm_1", action := "file_write", description := "Write a file"
              resource := none, details := none, status := "pending" })]
          waiterOutcome := none
          busEvents := [] })) ∧
    ((respondStep "mcp_perm_1"
        { pending := [("mcp_perm_1",
            { id := "mcp_perm_1", action := "file_write", description := "Write a file"
              resource := none, details := none, status := "pending" })]
          waiterOutcome := none
          busEvents := [] }
        { id := "mcp_perm_1", approved := true, reason := some "yes" }).1.success = true ∧
     ((respondStep "mcp_perm_1"
        { pending := [("mcp_perm_1",
            { id := "mcp_perm_1", action := "file_write", description := "Write a file"
              resource := none, details := none, status := "pending" })]
          waiterOutcome := none
          busEvents := [] }
        { id := "mcp_perm_1", approved := true, reason := some "yes" }).2).waiterOutcome =
       some { approved := true, reason := effectiveReason (some "yes") true } ∧
     respondStep "mcp_perm_1"
        ((respondStep "mcp_perm_1"
          { pending := [("mcp_perm_1",
              { id := "mcp_perm_1", action := "file_write", description := "Write a file"
                resource := none, details := none, status := "pending" })]
            waiterOutcome := none
            busEvents := [] }
          { id := "mcp_perm_1", approved := true, reason := some "yes" }).2)
        { id := "mcp_perm_1", approved := false, reason := some "changed my mind" }
      = (notFoundResult,
        (respondStep "mcp_perm_1"
          { pending := [("mcp_perm_1",
              { id := "mcp_perm_1", action := "file_write", description := "Write a file"
                resource := none, details := none, status := "pending" })]
            waiterOutcome := none
            busEvents := [] }
          { id := "mcp_perm_1", approved := true, reason := some "yes" }).2)) :=
  ⟨claim_C2_resolve_unknown_or_resolved.1 "mcp_perm_1" _
     { id := "unknown_id", approved := true, reason := none } (by decide),
   claim_C2_resolve_unknown_or_resolved.2 "mcp_perm_1" _
     { id := "mcp_perm_1", action := "file_write", description := "Write a file"
       resource := none, details := none, status := "pending" }
     { id := "mcp_perm_1", approved := true, reason := some "yes" }
     { id := "mcp_perm_1", approved := false, reason := some "changed my mind" }
     rfl rfl (by decide) rfl⟩

/-- C10 witness: a concrete request that times out; the respond call arriving
after the deadline changes nothing and no response event is published. -/
theorem claim_C10_timeout_publishes_no_response_witness :
    (∀ c ∈ ([] : List RespondCall), c.id ≠ "mcp_perm_9") ∧
    (∃ st results,
      requestMcpPermission "file_write" "Write a file" none none "mcp_perm_9" [] []
          [{ id := "mcp_perm_9", approved := true, reason := some "too late" }]
        = Except.ok (st, results) ∧
      st.waiterOutcome = some { approved := false, reason := "Request timed out after 60 seconds" } ∧
      mapLookup "mcp_perm_9" st.pending = none ∧
      (∀ r, BusEvent.permissionResponse r ∈ st.busEvents → r.id ≠ "mcp_perm_9") ∧
      BusEvent.permissionRequest
          { id := "mcp_perm_9", action := "file_write", description := "Write a file"
            resource := none, details := none, status := "pending" } ∈ st.busEvents) :=
  ⟨by simp,
   claim_C10_timeout_publishes_no_response "file_write" "Write a file" "mcp_perm_9" none none []
     [] [{ id := "mcp_perm_9", approved := true, reason := some "too late" }]
     (by decide) (by decide) (by simp)⟩

lemma eventFrame_ne_snapshot (e : BusEvent) (ps : List PermReq) :
    eventFrame e ≠ WsFrame.pendingSnapshot ps := by
  cases e <;> simp [eventFrame]

lemma snapshot_not_mem_eventFrames (laterEvents : List BusEvent) (ps : List PermReq) :
    WsFrame.pendingSnapshot ps ∉ laterEvents.map eventFrame := by
  intro hmem
  obtain ⟨e, _, he⟩ := List.mem_map.mp hmem
  exact eventFrame_ne_snapshot e ps he

/-- C9: a new WebSocket subscriber first receives `connected` carrying its
freshly minted client id, then a single `pending-permissions` snapshot holding
exactly the currently pending requests — present if and only if at least one
request is pending — and only afterwards the live permission events; the
subscriber is also registered in the client map. -/
theorem claim_C9_connection_snapshot (st : WsServerState) (clientId : String)
    (laterEvents : List BusEvent) :
    clientFramesAfterConnect st clientId laterEvents =
      WsFrame.connected clientId ::
        ((if getPendingPermissions st = [] then []
          else [WsFrame.pendingSnapshot (getPendingPermissions st)]) ++
         laterEvents.map eventFrame) ∧
    ((∃ ps, WsFrame.pendingSnapshot ps ∈ clientFramesAfterConnect st clientId laterEvents) ↔
      getPendingPermissions st ≠ []) ∧
    (∀ ps, WsFrame.pendingSnapshot ps ∈ clientFramesAfterConnect st clientId laterEvents →
      ps = getPendingPermissions st) ∧
    (handleConnection st clientId).1.permissionClients =
      mapSet clientId true st.permissionClients := by
  have hframes : clientFramesAfterConnect st clientId laterEvents =
      WsFrame.connected clientId ::
        ((if getPendingPermissions st = [] then []
          else [WsFrame.pendingSnapshot (getPendingPermissions st)]) ++
         laterEvents.map eventFrame) := by
    by_cases hp : getPendingPermissions st = []
    · simp [clientFramesAfterConnect, handleConnection, getPendingPermissions] at hp ⊢
      simp [hp]
    · have hlen : 0 < (getPendingPermissions st).length :=
        List.length_pos.mpr hp
      simp [clientFramesAfterConnect, handleConnection, getPendingPermissions] at hlen hp ⊢
      simp [hp, hlen]
  refine ⟨hframes, ?_, ?_, rfl⟩
  · constructor
    · rintro ⟨ps, hps⟩
      intro hemp
      rw [hframes, if_pos hemp] at hps
      rcases List.mem_cons.mp hps with h | h
      · exact WsFrame.noConfusion h
      · rw [List.nil_append] at h
        exact snapshot_not_mem_eventFrames laterEvents ps h
    · intro hne
      refine ⟨getPendingPermissions st, ?_⟩
      rw [hframes, if_neg hne]
      exact List.mem_cons_of_mem _ (List.mem_append_left _ (List.mem_singleton_self _))
  · intro ps hps
    rw [hframes] at hps
    by_cases hp : getPendingPermissions st = []
    · rw [if_pos hp] at hps
      rcases List.mem_cons.mp hps with h | h
      · exact WsFrame.noConfusion h
      · rw [List.nil_append] at h
        exact absurd h (snapshot_not_mem_eventFrames laterEvents ps)
    · rw [if_neg hp] at hps
      rcases List.mem_cons.mp hps with h | h
      · exact WsFrame.noConfusion h
      · rcases List.mem_append.mp h with h2 | h2
        · have h3 := List.mem_singleton.mp h2
          injection h3 with h4
        · exact absurd h2 (snapshot_not_mem_eventFrames laterEvents ps)

/-- C7 counterexample: an object tagged `result` whose `result` field is
absent (falsy) but which carries a `content` field falls through to the
content passthrough branch, so a text event IS emitted for it — refuting the
claim that every object tagged `result` is suppressed. -/
theorem claim_C7_counterexample :
    typeIs (JSVal.vObj [("type", JSVal.vStr "result"),
        ("content", JSVal.vStr "leftover")]) "result" = true ∧
    (processClaudeMessage (JSVal.vObj [("type", JSVal.vStr "result"),
        ("content", JSVal.vStr "leftover")])).map (fun o => o.shouldSend) = some true :=
  ⟨rfl, rfl⟩

/-- C7 amended: every stream event that is an object tagged `result` whose
`result` payload is truthy is suppressed: content is reset to the empty string
and no text event is emitted. (A result-tagged object with a falsy or missing
`result` field instead falls through to the content/text passthrough.) -/
theorem claim_C7_result_suppressed (m : JSVal)
    (htype : typeIs m "result" = true)
    (hres : truthy (getField m "result") = true) :
    processClaudeMessage m = some { content := JSVal.vStr "", shouldSend := false } := by
  cases m with
  | vObj fs =>
    cases hg : getField (JSVal.vObj fs) "type" with
    | vStr s =>
      have hs : s = "result" := by
        have h := htype
        simp only [typeIs, hg] at h
        exact beq_iff_eq.mp h
      have hassist : typeIs (JSVal.vObj fs) "assistant" = false := by
        simp [typeIs, hg, hs]
      have h1 : truthy (JSVal.vObj fs) = true := rfl
      have h2 : (jsTypeOf (JSVal.vObj fs) == "object") = true := rfl
      simp [processClaudeMessage, hassist, htype, hres, h1, h2]
    | vUndefined => simp [typeIs, hg] at htype
    | vNull => simp [typeIs, hg] at htype
    | vBool b => simp [typeIs, hg] at htype
    | vNum n => simp [typeIs, hg] at htype
    | vArr xs => simp [typeIs, hg] at htype
    | vObj fs2 => simp [typeIs, hg] at htype
  | vUndefined => simp [typeIs, getField] at htype
  | vNull => simp [typeIs, getField] at htype
  | vBool b => simp [typeIs, getField] at htype
  | vNum n => simp [typeIs, getField] at htype
  | vStr s => simp [typeIs, getField] at htype
  | vArr xs => simp [typeIs, getField] at htype

/-- C7 witness: a concrete result-tagged object with a truthy result payload
is suppressed. -/
theorem claim_C7_result_suppressed_witness :
    typeIs (JSVal.vObj [("type", JSVal.vStr "result"),
        ("result", JSVal.vObj [("ok", JSVal.vBool true)])]) "result" = true ∧
    truthy (getField (JSVal.vObj [("type", JSVal.vStr "result"),
        ("result", JSVal.vObj [("ok", JSVal.vBool true)])]) "result") = true ∧
    processClaudeMessage (JSVal.vObj [("type", JSVal.vStr "result"),
        ("result", JSVal.vObj [("ok", JSVal.vBool true)])])
      = some { content := JSVal.vStr "", shouldSend := false } :=
  ⟨rfl, rfl, claim_C7_result_suppressed _ rfl rfl⟩

lemma strLengthPosOfNe (s : String) (h : s ≠ "") : 0 < s.length := by
  cases s with
  | mk data =>
    cases data with
    | nil => exact absurd rfl h
    | cons c cs => simp [String.length]

/-- Concatenation performed by the assistant branch: exactly the text-typed
parts, mapped to their (join-coerced) `text` fields, joined by one newline. -/
def assistantJoin (items : List JSVal) : String :=
  joinNewline ((items.filter (fun item => typeIs item "text")).map
    (fun item => jsElemStr (getField item "text")))

/-- C8 counterexample: an assistant message whose only text part is a single
space joins to the non-empty one-character string, yet no text event is
emitted, because the send guard additionally requires a non-empty trim — so
"emits if and only if the resulting string is non-empty" fails. -/
theorem claim_C8_counterexample :
    assistantJoin [JSVal.vObj [("type", JSVal.vStr "text"), ("text", JSVal.vStr " ")]] = " " ∧
    (" " : String) ≠ "" ∧
    processClaudeMessage (JSVal.vObj [("type", JSVal.vStr "assistant"),
        ("message", JSVal.vObj [("content", JSVal.vArr
          [JSVal.vObj [("type", JSVal.vStr "text"), ("text", JSVal.vStr " ")]])])])
      = some { content := JSVal.vStr " ", shouldSend := false } :=
  ⟨rfl, by decide, rfl⟩

/-- C8 amended: for every assistant-tagged object whose `message.content` is a
list of typed parts, normalization emits content equal to exactly the
text-typed parts joined by a single newline (other part types contribute
nothing), and the text event is sent if and only if that joined string still
has positive length after trimming, i.e. contains a non-whitespace character. -/
theorem claim_C8_assistant_join (items : List JSVal)
    (restMsg restTop : List (String × JSVal)) :
    processClaudeMessage (JSVal.vObj (("type", JSVal.vStr "assistant") ::
        ("message", JSVal.vObj (("content", JSVal.vArr items) :: restMsg)) :: restTop))
      = some { content := JSVal.vStr (assistantJoin items)
               shouldSend := decide (0 < (jsTrim (assistantJoin items)).length) } ∧
    ((processClaudeMessage (JSVal.vObj (("type", JSVal.vStr "assistant") ::
        ("message", JSVal.vObj (("content", JSVal.vArr items) :: restMsg)) :: restTop))).map
      (fun o => o.shouldSend) = some true ↔
      0 < (jsTrim (assistantJoin items)).length) := by
  have htype : typeIs (JSVal.vObj (("type", JSVal.vStr "assistant") ::
      ("message", JSVal.vObj (("content", JSVal.vArr items) :: restMsg)) :: restTop))
      "assistant" = true := by
    simp [typeIs, getField, mapLookup]
  have hmsg : getField (JSVal.vObj (("type", JSVal.vStr "assistant") ::
      ("message", JSVal.vObj (("content", JSVal.vArr items) :: restMsg)) :: restTop)) "message"
      = JSVal.vObj (("content", JSVal.vArr items) :: restMsg) := by
    simp [getField, mapLookup]
  have hcont : getField (JSVal.vObj (("content", JSVal.vArr items) :: restMsg)) "content"
      = JSVal.vArr items := by
    simp [getField, mapLookup]
  have htrimnil : jsTrim "" = "" := rfl
  have hmain :
      processClaudeMessage (JSVal.vObj (("type", JSVal.vStr "assistant") ::
          ("message", JSVal.vObj (("content", JSVal.vArr items) :: restMsg)) :: restTop))
        = some { content := JSVal.vStr (assistantJoin items)
                 shouldSend := decide (0 < (jsTrim (assistantJoin items)).length) } := by
    by_cases hempty : assistantJoin items = ""
    · simp only [assistantJoin] at hempty ⊢
      simp [processClaudeMessage, htype, hmsg, hcont, truthy, jsTypeOf, hempty, htrimnil]
    · have hlen : 0 < (assistantJoin items).length := strLengthPosOfNe _ hempty
      simp only [assistantJoin] at hempty hlen ⊢
      simp [processClaudeMessage, htype, hmsg, hcont, truthy, jsTypeOf, hempty, hlen]
  refine ⟨hmain, ?_⟩
  rw [hmain]
  simp

lemma handlePermission_ok_not_bool (args : JSVal) (env : ProxyEnv) (body : JSVal) (text : String)
    (hnb : ∀ b, getField body "approved" ≠ JSVal.vBool b) :
    ∃ m, handlePermission args env (FetchOutcome.httpResp true body text) = denyDecision m := by
  cases hc : (!(truthy body) || (jsTypeOf body != "object")) with
  | true =>
    exact ⟨"Invalid response format: expected object, got " ++ jsTypeOf body,
      by simp [handlePermission, hc]⟩
  | false =>
    cases hb : getField body "approved" with
    | vBool b => exact absurd hb (hnb b)
    | vUndefined =>
      exact ⟨"Invalid response: approved field must be boolean, got " ++ jsTypeOf JSVal.vUndefined,
        by simp [handlePermission, hc, hb]⟩
    | vNull =>
      exact ⟨"Invalid response: approved field must be boolean, got " ++ jsTypeOf JSVal.vNull,
        by simp [handlePermission, hc, hb]⟩
    | vNum n =>
      exact ⟨"Invalid response: approved field must be boolean, got " ++ jsTypeOf (JSVal.vNum n),
        by simp [handlePermission, hc, hb]⟩
    | vStr s =>
      exact ⟨"Invalid response: approved field must be boolean, got " ++ jsTypeOf (JSVal.vStr s),
        by simp [handlePermission, hc, hb]⟩
    | vArr xs =>
      exact ⟨"Invalid response: approved field must be boolean, got " ++ jsTypeOf (JSVal.vArr xs),
        by simp [handlePermission, hc, hb]⟩
    | vObj fs2 =>
      exact ⟨"Invalid response: approved field must be boolean, got " ++ jsTypeOf (JSVal.vObj fs2),
        by simp [handlePermission, hc, hb]⟩

/-- C3: every transport failure on the call to the broker submit endpoint —
the fetch threw (timeout or connection error), the HTTP status was not ok, or
the response body has no boolean `approved` field — yields a decision with
behavior `deny` carrying the standard explanatory message, and never `allow`. -/
theorem claim_C3_fail_closed (args : JSVal) (env : ProxyEnv) (fetch : FetchOutcome)
    (hfail : isTransportFailure fetch = true) :
    (handlePermission args env fetch).behavior = "deny" ∧
    (handlePermission args env fetch).behavior ≠ "allow" ∧
    (∃ m, (handlePermission args env fetch).message =
      "Permission request failed: " ++ m ++ ". Assuming permission denied for safety.") := by
  have hdeny : ∃ m, handlePermission args env fetch = denyDecision m := by
    cases fetch with
    | netError m => exact ⟨m, rfl⟩
    | httpResp ok body text =>
      cases ok with
      | false => exact ⟨"Permission request failed: " ++ text, rfl⟩
      | true =>
        apply handlePermission_ok_not_bool
        intro b hb
        simp [isTransportFailure, hb] at hfail
  obtain ⟨m, hm⟩ := hdeny
  rw [hm]
  refine ⟨rfl, ?_, ⟨m, rfl⟩⟩
  intro h
  have hb : (denyDecision m).behavior = "deny" := rfl
  rw [hb] at h
  exact absurd h (by decide)

/-- C3 witness: a concrete connection failure is denied with the standard
message. -/
theorem claim_C3_fail_closed_witness :
    isTransportFailure (FetchOutcome.netError "connect ECONNREFUSED") = true ∧
    ((handlePermission
        (JSVal.vObj [("action", JSVal.vStr "file_write"),
          ("description", JSVal.vStr "Write a file")])
        { webAppBaseUrl := some "http://localhost:3001"
          claudeWorkspaceDir := some "/base/session_1", cwd := "/srv" }
        (FetchOutcome.netError "connect ECONNREFUSED")).behavior = "deny" ∧
     (handlePermission
        (JSVal.vObj [("action", JSVal.vStr "file_write"),
          ("description", JSVal.vStr "Write a file")])
        { webAppBaseUrl := some "http://localhost:3001"
          claudeWorkspaceDir := some "/base/session_1", cwd := "/srv" }
        (FetchOutcome.netError "connect ECONNREFUSED")).behavior ≠ "allow" ∧
     (∃ m, (handlePermission
        (JSVal.vObj [("action", JSVal.vStr "file_write"),
          ("description", JSVal.vStr "Write a file")])
        { webAppBaseUrl := some "http://localhost:3001"
          claudeWorkspaceDir := some "/base/session_1", cwd := "/srv" }
        (FetchOutcome.netError "connect ECONNREFUSED")).message =
        "Permission request failed: " ++ m ++ ". Assuming permission denied for safety.")) :=
  ⟨rfl, claim_C3_fail_closed _ _ _ rfl⟩

/-- Decidable cleanliness of a segment list: no empty, `.` or `..` segments,
so normalization keeps the path verbatim. -/
def cleanSegs (l : List String) : Bool :=
  l.all (fun seg => seg != "" && seg != "." && seg != "..")

lemma splitSlashAux_ne_nil : ∀ (l cur : List Char), splitSlashAux cur l ≠ [] := by
  intro l
  induction l with
  | nil => intro cur; simp [splitSlashAux]
  | cons c rest ih =>
    intro cur
    by_cases hc : c = '/'
    · simp [splitSlashAux, hc]
    · simpa [splitSlashAux, hc] using ih (c :: cur)

lemma splitSlashAux_append_slash :
    ∀ (xs : List Char) (cur ys : List Char),
      splitSlashAux cur (xs ++ '/' :: ys) = splitSlashAux cur xs ++ splitSlashAux [] ys := by
  intro xs
  induction xs with
  | nil => intro cur ys; simp [splitSlashAux]
  | cons c rest ih =>
    intro cur ys
    by_cases hc : c = '/'
    · simp [splitSlashAux, hc, ih]
    · simp [splitSlashAux, hc, ih]

lemma joinSlash_append :
    ∀ (A B : List String), A ≠ [] → B ≠ [] →
      joinSlash (A ++ B) = joinSlash A ++ "/" ++ joinSlash B := by
  intro A
  induction A with
  | nil => intro B hA _; exact absurd rfl hA
  | cons a rest ih =>
    intro B hA hB
    cases rest with
    | nil =>
      cases B with
      | nil => exact absurd rfl hB
      | cons b bs => simp [joinSlash]
    | cons a2 rest2 =>
      have hrec := ih B (by simp) hB
      simp only [List.cons_append] at hrec
      show a ++ "/" ++ joinSlash (a2 :: (rest2 ++ B)) =
        (a ++ "/" ++ joinSlash (a2 :: rest2)) ++ "/" ++ joinSlash B
      rw [hrec]
      simp [String.append_assoc]

lemma joinSlash_splitSlashAux :
    ∀ (l cur : List Char), joinSlash (splitSlashAux cur l) = String.mk (cur.reverse ++ l) := by
  intro l
  induction l with
  | nil => intro cur; simp [splitSlashAux, joinSlash]
  | cons c rest ih =>
    intro cur
    by_cases hc : c = '/'
    · have hne := splitSlashAux_ne_nil rest []
      cases hsp : splitSlashAux [] rest with
      | nil => exact absurd hsp hne
      | cons s ss =>
        have hrec := ih []
        rw [hsp] at hrec
        simp only [splitSlashAux, hc, if_pos rfl, hsp]
        show String.mk cur.reverse ++ "/" ++ joinSlash (s :: ss) = String.mk (cur.reverse ++ '/' :: rest)
        rw [hrec]
        have : String.mk cur.reverse ++ "/" ++ String.mk (List.reverse ([] : List Char) ++ rest)
            = String.mk (cur.reverse ++ '/' :: rest) := by
          show String.mk cur.reverse ++ String.mk ['/'] ++ String.mk rest
            = String.mk (cur.reverse ++ '/' :: rest)
          show String.mk ((cur.reverse ++ ['/']) ++ rest) = String.mk (cur.reverse ++ '/' :: rest)
          rw [List.append_assoc]
          rfl
        simpa using this
    · have hrec := ih (c :: cur)
      rw [show splitSlashAux cur (c :: rest) = splitSlashAux (c :: cur) rest from by
        simp [splitSlashAux, hc]]
      rw [hrec]
      simp

lemma collapseSegs_clean (isAbs : Bool) :
    ∀ (l acc : List String), cleanSegs l = true →
      collapseSegs isAbs acc l = acc.reverse ++ l := by
  intro l
  induction l with
  | nil => intro acc _; simp [collapseSegs]
  | cons seg rest ih =>
    intro acc hclean
    have hseg : (seg != "" && seg != "." && seg != "..") = true := by
      have := (List.all_eq_true.mp hclean) seg (List.mem_cons_self seg rest)
      simpa using this
    have hrest : cleanSegs rest = true := by
      apply List.all_eq_true.mpr
      intro x hx
      exact (List.all_eq_true.mp hclean) x (List.mem_cons_of_mem seg hx)
    have h1 : ¬(seg = "") := by
      intro h
      rw [h] at hseg
      simp at hseg
    have h2 : ¬(seg = ".") := by
      intro h
      rw [h] at hseg
      simp at hseg
    have h3 : ¬(seg = "..") := by
      intro h
      rw [h] at hseg
      simp at hseg
    rw [show collapseSegs isAbs acc (seg :: rest) = collapseSegs isAbs (seg :: acc) rest from by
      simp [collapseSegs, h1, h2, h3]]
    rw [ih (seg :: acc) hrest]
    simp

lemma splitSlash_abs_append (b1 b2 : String) :
    splitSlash ("/" ++ b1 ++ "/" ++ b2) = "" :: (splitSlash b1 ++ splitSlash b2) := by
  have hd : ("/" ++ b1 ++ "/" ++ b2).data = '/' :: (b1.data ++ '/' :: b2.data) := by
    have h1 : ("/" : String).data = ['/'] := rfl
    simp [String.data_append, h1]
  rw [splitSlash, hd]
  rw [show splitSlashAux [] ('/' :: (b1.data ++ '/' :: b2.data)) =
      String.mk [] :: splitSlashAux [] (b1.data ++ '/' :: b2.data) from by
    simp [splitSlashAux]]
  rw [splitSlashAux_append_slash]
  rfl

lemma strHasLead_slash_append (x : String) : strHasLead "/" ("/" ++ x) = true := by
  have hd : ("/" ++ x).data = '/' :: x.data := by
    have h1 : ("/" : String).data = ['/'] := rfl
    simp [String.data_append, h1]
  simp [strHasLead, hd, charsLead]

lemma slashAppend_ne_empty (x : String) : ("/" ++ x) ≠ "" := by
  intro h
  have hd := congrArg String.data h
  have h1 : ("/" : String).data = ['/'] := rfl
  simp [String.data_append, h1] at hd

lemma normalizePath_abs_clean (b1 b2 : String)
    (h1 : cleanSegs (splitSlash b1) = true) (h2 : cleanSegs (splitSlash b2) = true) :
    normalizePath ("/" ++ b1 ++ "/" ++ b2) = "/" ++ b1 ++ "/" ++ b2 := by
  have habs : strHasLead "/" ("/" ++ b1 ++ "/" ++ b2) = true := by
    rw [String.append_assoc, String.append_assoc]
    exact strHasLead_slash_append (b1 ++ ("/" ++ b2))
  have hclean : cleanSegs (splitSlash b1 ++ splitSlash b2) = true := by
    apply List.all_eq_true.mpr
    intro x hx
    rcases List.mem_append.mp hx with hx | hx
    · exact (List.all_eq_true.mp h1) x hx
    · exact (List.all_eq_true.mp h2) x hx
  rw [normalizePath]
  rw [habs, splitSlash_abs_append]
  rw [show collapseSegs true [] ("" :: (splitSlash b1 ++ splitSlash b2)) =
      collapseSegs true [] (splitSlash b1 ++ splitSlash b2) from by
    simp [collapseSegs]]
  rw [collapseSegs_clean true _ [] hclean]
  simp only [List.reverse_nil, List.nil_append, if_true]
  rw [joinSlash_append (splitSlash b1) (splitSlash b2)
    (splitSlashAux_ne_nil _ _) (splitSlashAux_ne_nil _ _)]
  have hb1 : joinSlash (splitSlash b1) = b1 := by
    rw [splitSlash, joinSlash_splitSlashAux]
    rfl
  have hb2 : joinSlash (splitSlash b2) = b2 := by
    rw [splitSlash, joinSlash_splitSlashAux]
    rfl
  rw [hb1, hb2]
  simp [String.append_assoc]

lemma cleanSegs_ne_empty (s : String) (h : cleanSegs (splitSlash s) = true) : s ≠ "" := by
  intro he
  rw [he] at h
  exact absurd h (by decide)

lemma jsPathJoin_abs_clean (b1 b2 : String)
    (h1 : cleanSegs (splitSlash b1) = true) (h2 : cleanSegs (splitSlash b2) = true) :
    jsPathJoin ("/" ++ b1) b2 = "/" ++ b1 ++ "/" ++ b2 := by
  have ha : ("/" ++ b1) ≠ "" := slashAppend_ne_empty b1
  have hb : b2 ≠ "" := cleanSegs_ne_empty b2 h2
  rw [jsPathJoin]
  rw [if_neg (by simp [ha, hb]), if_neg (by simpa using ha), if_neg hb]
  exact normalizePath_abs_clean b1 b2 h1 h2

lemma tmpAppend_data (name : String) :
    ("/tmp/" ++ name).data = '/' :: 't' :: 'm' :: 'p' :: '/' :: name.data := by
  have h1 : ("/tmp/" : String).data = ['/', 't', 'm', 'p', '/'] := rfl
  simp [String.data_append, h1]

lemma tmpAppend_ne_empty (name : String) : ("/tmp/" ++ name) ≠ "" := by
  intro h
  have hd := congrArg String.data h
  rw [tmpAppend_data] at hd
  simp at hd

lemma strHasLead_tmp_append (name : String) :
    strHasLead "/tmp/" ("/tmp/" ++ name) = true := by
  simp [strHasLead, tmpAppend_data, charsLead]

lemma stripTmpLead_append (name : String) :
    stripTmpLead ("/tmp/" ++ name) = name := by
  simp [stripTmpLead, tmpAppend_data]

lemma getField_is_obj {v : JSVal} {k : String} {x : JSVal}
    (h : getField v k = x) (hx : x ≠ JSVal.vUndefined) : ∃ fs, v = JSVal.vObj fs := by
  cases v with
  | vObj fs => exact ⟨fs, rfl⟩
  | vUndefined => exact absurd h.symm hx
  | vNull => exact absurd h.symm hx
  | vBool b => exact absurd h.symm hx
  | vNum n => exact absurd h.symm hx
  | vStr s => exact absurd h.symm hx
  | vArr xs => exact absurd h.symm hx

lemma getField_setField_self (fs : List (String × JSVal)) (k : String) (x : JSVal) :
    getField (setField (JSVal.vObj fs) k x) k = x := by
  simp [setField, getField, mapLookup_mapSet_self]

/-- C4: for every approved permission request whose translated details carry
`file_path = "/tmp/" ++ name` (a clean relative remainder), against a bound
session workspace directory `"/" ++ wsBody` (clean absolute, visible to the
proxy through `CLAUDE_WORKSPACE_DIR` with `WEB_APP_BASE_URL` set), the
decision contains `updatedInput.file_path` equal to the workspace directory
joined with `name`, which — as long as the workspace is not `/tmp` itself —
is never the original `/tmp` path, regardless of what the agent suggested. -/
theorem claim_C4_tmp_redirect
    (args : JSVal) (d : List (String × JSVal)) (name wsBody text baseUrl cwd : String)
    (body : JSVal)
    (hdet : argsDetails args = JSVal.vObj d)
    (hfp : getField (JSVal.vObj d) "file_path" = JSVal.vStr ("/tmp/" ++ name))
    (hname : cleanSegs (splitSlash name) = true)
    (hws : cleanSegs (splitSlash wsBody) = true)
    (hwsne : wsBody ≠ "tmp")
    (hurl : baseUrl ≠ "")
    (happ : getField body "approved" = JSVal.vBool true) :
    ∃ ui, (handlePermission args
        { webAppBaseUrl := some baseUrl, claudeWorkspaceDir := some ("/" ++ wsBody), cwd := cwd }
        (FetchOutcome.httpResp true body text)).updatedInput = some ui ∧
      getField ui "file_path" = JSVal.vStr (jsPathJoin ("/" ++ wsBody) name) ∧
      jsPathJoin ("/" ++ wsBody) name = "/" ++ wsBody ++ "/" ++ name ∧
      jsPathJoin ("/" ++ wsBody) name ≠ "/tmp/" ++ name := by
  obtain ⟨bs, hbody⟩ := getField_is_obj happ (by simp)
  subst hbody
  have htne : ("/tmp/" ++ name) ≠ "" := tmpAppend_ne_empty name
  have hwsne2 : ("/" ++ wsBody) ≠ "" := slashAppend_ne_empty wsBody
  have hn : name ≠ "" := cleanSegs_ne_empty name hname
  have hwd : proxyWorkspaceDir
      { webAppBaseUrl := some baseUrl, claudeWorkspaceDir := some ("/" ++ wsBody), cwd := cwd }
      = "/" ++ wsBody := by
    simp [proxyWorkspaceDir, envTruthy, hurl, hwsne2]
  have hrw : rewriteTmpPath ("/tmp/" ++ name) ("/" ++ wsBody) cwd =
      jsPathJoin ("/" ++ wsBody) name := by
    simp [rewriteTmpPath, strHasLead_tmp_append, stripTmpLead_append, hn,
      strHasLead_slash_append]
  have hui : (handlePermission args
      { webAppBaseUrl := some baseUrl, claudeWorkspaceDir := some ("/" ++ wsBody), cwd := cwd }
      (FetchOutcome.httpResp true (JSVal.vObj bs) text)).updatedInput =
      some (setField (JSVal.vObj d) "file_path"
        (JSVal.vStr (jsPathJoin ("/" ++ wsBody) name))) := by
    simp [handlePermission, hdet, hfp, happ, hwd, hrw, truthy, jsTypeOf, htne]
  refine ⟨setField (JSVal.vObj d) "file_path" (JSVal.vStr (jsPathJoin ("/" ++ wsBody) name)),
    hui, getField_setField_self d "file_path" _,
    jsPathJoin_abs_clean wsBody name hws hname, ?_⟩
  rw [jsPathJoin_abs_clean wsBody name hws hname]
  intro he
  have hd := congrArg String.data he
  rw [tmpAppend_data] at hd
  have h1 : ("/" : String).data = ['/'] := rfl
  simp [String.data_append, h1] at hd
  have h2 : wsBody.data ++ ('/' :: name.data) = ['t', 'm', 'p'] ++ ('/' :: name.data) := hd
  have h3 : wsBody.data = ['t', 'm', 'p'] := List.append_cancel_right h2
  apply hwsne
  apply String.ext
  rw [h3]

/-- C4 witness: the concrete approved request with `/tmp/x.txt` is redirected
into the session workspace `/base/session_1`. -/
theorem claim_C4_tmp_redirect_witness :
    cleanSegs (splitSlash "x.txt") = true ∧
    cleanSegs (splitSlash "base/session_1") = true ∧
    (∃ ui, (handlePermission
        (JSVal.vObj [("action", JSVal.vStr "file_write"),
          ("description", JSVal.vStr "Write a file"),
          ("details", JSVal.vObj [("file_path", JSVal.vStr "/tmp/x.txt")])])
        { webAppBaseUrl := some "http://localhost:3001"
          claudeWorkspaceDir := some ("/" ++ "base/session_1"), cwd := "/srv" }
        (FetchOutcome.httpResp true
          (JSVal.vObj [("approved", JSVal.vBool true), ("reason", JSVal.vStr "ok")])
          "")).updatedInput = some ui ∧
      getField ui "file_path" = JSVal.vStr (jsPathJoin ("/" ++ "base/session_1") "x.txt") ∧
      jsPathJoin ("/" ++ "base/session_1") "x.txt" =
        "/" ++ "base/session_1" ++ "/" ++ "x.txt" ∧
      jsPathJoin ("/" ++ "base/session_1") "x.txt" ≠ "/tmp/" ++ "x.txt") :=
  ⟨by decide, by decide,
   claim_C4_tmp_redirect
     (JSVal.vObj [("action", JSVal.vStr "file_write"),
       ("description", JSVal.vStr "Write a file"),
       ("details", JSVal.vObj [("file_path", JSVal.vStr "/tmp/x.txt")])])
     [("file_path", JSVal.vStr "/tmp/x.txt")]
     "x.txt" "base/session_1" "" "http://localhost:3001" "/srv"
     (JSVal.vObj [("approved", JSVal.vBool true), ("reason", JSVal.vStr "ok")])
     rfl rfl (by decide) (by decide) (by decide) (by decide) rfl⟩

/-- C5 counterexample: two consecutive calls with the same unknown session id
each mint a fresh session and directory; the unknown id is never bound, so the
calls do not converge on one binding and the second call does not return the
directory of the first. -/
theorem claim_C5_counterexample :
    ((getSessionWorkspace (some "claude-session-X") [] "/base" "session_1" "t1").1).workspaceDir
      = "/base/session_1" ∧
    ((getSessionWorkspace (some "claude-session-X")
        ((getSessionWorkspace (some "claude-session-X") [] "/base" "session_1" "t1").2.1)
        "/base" "session_2" "t2").1).workspaceDir = "/base/session_2" ∧
    ("/base/session_2" : String) ≠ "/base/session_1" ∧
    mapLookup "claude-session-X"
      ((getSessionWorkspace (some "claude-session-X") [] "/base" "session_1" "t1").2.1) = none :=
  ⟨by decide, by decide, by decide, by decide⟩

/-- C5 amended: a known (truthy, already-bound) session id returns its stored
directory unchanged with no state change or filesystem effect; an unknown or
absent id creates and seeds a fresh workspace and records the binding under
the newly minted id only — the requested unknown id stays unbound — so a
subsequent call with the minted id returns the same directory. -/
theorem claim_C5_get_or_create
    (m : List (String × String)) (base fresh now fresh2 now2 : String) :
    (∀ sid dir, sid ≠ "" → mapLookup sid m = some dir →
      getSessionWorkspace (some sid) m base fresh now =
        ({ sessionId := sid, workspaceDir := dir }, m, [])) ∧
    (∀ sessionId, sessionKnown sessionId m = false → fresh ≠ "" →
      getSessionWorkspace sessionId m base fresh now =
        ({ sessionId := fresh, workspaceDir := jsPathJoin base fresh },
         mapSet fresh (jsPathJoin base fresh) m,
         [FsOp.ensureDir (jsPathJoin base fresh),
          FsOp.writeFile (jsPathJoin (jsPathJoin base fresh) "README.md")
            (sessionReadme fresh now (jsPathJoin base fresh))]) ∧
      getSessionWorkspace (some fresh) (mapSet fresh (jsPathJoin base fresh) m)
          base fresh2 now2 =
        ({ sessionId := fresh, workspaceDir := jsPathJoin base fresh },
         mapSet fresh (jsPathJoin base fresh) m, [])) := by
  constructor
  · intro sid dir hsid hdir
    simp [getSessionWorkspace, hsid, hdir]
  · intro sessionId hsk hf
    constructor
    · cases sessionId with
      | none => simp [getSessionWorkspace, createAndBind, createSessionWorkspace]
      | some sid =>
        by_cases hsid : sid = ""
        · simp [getSessionWorkspace, hsid, createAndBind, createSessionWorkspace]
        · have hlk : mapLookup sid m = none := by
            simp [sessionKnown, hsid] at hsk
            cases hl : mapLookup sid m with
            | none => rfl
            | some d =>
              rw [hl] at hsk
              simp at hsk
          simp [getSessionWorkspace, hsid, hlk, createAndBind, createSessionWorkspace]
    · simp [getSessionWorkspace, hf, mapLookup_mapSet_self]

/-- C5 witness: concrete instances of the known-id and unknown-id branches. -/
theorem claim_C5_get_or_create_witness :
    (getSessionWorkspace (some "session_0") [("session_0", "/base/session_0")]
        "/base" "session_1" "t1" =
      ({ sessionId := "session_0", workspaceDir := "/base/session_0" },
       [("session_0", "/base/session_0")], [])) ∧
    (getSessionWorkspace (some "claude-session-X") [("session_0", "/base/session_0")]
        "/base" "session_1" "t1" =
      ({ sessionId := "session_1", workspaceDir := jsPathJoin "/base" "session_1" },
       mapSet "session_1" (jsPathJoin "/base" "session_1") [("session_0", "/base/session_0")],
       [FsOp.ensureDir (jsPathJoin "/base" "session_1"),
        FsOp.writeFile (jsPathJoin (jsPathJoin "/base" "session_1") "README.md")
          (sessionReadme "session_1" "t1" (jsPathJoin "/base" "session_1"))]) ∧
     getSessionWorkspace (some "session_1")
        (mapSet "session_1" (jsPathJoin "/base" "session_1") [("session_0", "/base/session_0")])
        "/base" "session_2" "t2" =
      ({ sessionId := "session_1", workspaceDir := jsPathJoin "/base" "session_1" },
       mapSet "session_1" (jsPathJoin "/base" "session_1") [("session_0", "/base/session_0")],
       [])) :=
  ⟨(claim_C5_get_or_create [("session_0", "/base/session_0")] "/base" "session_1" "t1"
      "session_2" "t2").1 "session_0" "/base/session_0" (by decide) (by decide),
   (claim_C5_get_or_create [("session_0", "/base/session_0")] "/base" "session_1" "t1"
      "session_2" "t2").2 (some "claude-session-X") (by decide) (by decide)⟩

/-- C6 (code bug): after a chat call, `CLAUDE_WORKSPACE_DIR` is restored only
when it was set before the call; when it was unset, the strict
`originalEnv !== null` guard still passes (the saved value is `undefined`, not
`null`) and the assignment `process.env.CLAUDE_WORKSPACE_DIR = undefined`
coerces to the string literal `undefined`, so the variable ends the call set
to the string `undefined` instead of returning to unset. -/
theorem claim_C6_env_restore_bug :
    chatEnvRun none "/base/session_1" = some "undefined" ∧
    some "undefined" ≠ (none : Option String) ∧
    chatEnvRun (some "/srv/app") "/base/session_1" = some "/srv/app" :=
  ⟨rfl, by decide, rfl⟩
